import Mathlib

/-!
Shallow embedding of the vehicle tracking and line-counting program
(src/app.py).  The script wires an external detection model, a tracker and
per-line crossing counters into a per-frame callback.  The tracker and the
line-counter internals live in an external library that is not part of this
repository, so those operations are modelled from the spec (each such
definition says so in its doc comment); the class filter, the startup
configuration and the callback's data flow are embedded from the source.
Pixel coordinates are embedded as exact integers (the source's configured
line endpoints are integers), so the on-line tolerance of the side
classification degenerates to exact zero; detection confidences are exact
rationals in [0, 1].
-/

namespace App

/-- A 2D point with exact integer pixel coordinates. -/
structure Point where
  x : ℤ
  y : ℤ
  deriving DecidableEq

/-- Side of an oriented line: positive, negative, or on the line. -/
inductive Side where
  | Pos
  | Neg
  | OnLine
  deriving DecidableEq

/-- The side encoded by a stored boolean: `true` is Positive. -/
def sideOfBool (b : Bool) : Side :=
  if b then Side.Pos else Side.Neg

/-- Modelled from the spec: signed cross product of (line-end − line-start)
and (point − line-start); the library code computing it is not in the
repository. -/
def cross (s e p : Point) : ℤ :=
  (e.x - s.x) * (p.y - s.y) - (e.y - s.y) * (p.x - s.x)

/-- Modelled from the spec: classify a point as Positive, Negative, or
On-Line by the sign of the cross product (tolerance is exact zero over ℤ). -/
def classify (s e p : Point) : Side :=
  if 0 < cross s e p then Side.Pos
  else if cross s e p < 0 then Side.Neg
  else Side.OnLine

/-- Look up the stored side of a track id in a side-history association
list. -/
def lookupSide : List (Nat × Bool) → Nat → Option Bool
  | [], _ => none
  | e :: rest, i => if e.1 = i then some e.2 else lookupSide rest i

/-- Store a side for a track id, replacing any previous entry. -/
def setSide : List (Nat × Bool) → Nat → Bool → List (Nat × Bool)
  | [], i, b => [(i, b)]
  | e :: rest, i, b => if e.1 = i then (i, b) :: rest else e :: setSide rest i b

/-- Delete the stored side of a track id. -/
def eraseSide : List (Nat × Bool) → Nat → List (Nat × Bool)
  | [], _ => []
  | e :: rest, i => if e.1 = i then eraseSide rest i else e :: eraseSide rest i

/-- A line zone: an oriented segment, two directional counters and the
last-seen definite side per track id (`true` = Positive). -/
structure LineZone where
  start : Point
  endPoint : Point
  posCount : Nat
  negCount : Nat
  sides : List (Nat × Bool)
  deriving DecidableEq

/-- The (positive, negative) counter snapshot of a line zone. -/
def lineCounts (z : LineZone) : Nat × Nat :=
  (z.posCount, z.negCount)

/-- Modelled from the spec: process one (track, line) observation.  The
library's per-track crossing step is not in the repository, so this follows
the spec's state machine: On-Line changes nothing; a first observation
records the side; a strict flip increments the matching directional counter
once; the current definite side is stored. -/
def triggerOne (z : LineZone) (i : Nat) (p : Point) : LineZone :=
  match classify z.start z.endPoint p with
  | Side.OnLine => z
  | Side.Pos =>
    match lookupSide z.sides i with
    | none => { z with sides := setSide z.sides i true }
    | some prev =>
      if prev then { z with sides := setSide z.sides i true }
      else { z with posCount := z.posCount + 1, sides := setSide z.sides i true }
  | Side.Neg =>
    match lookupSide z.sides i with
    | none => { z with sides := setSide z.sides i false }
    | some prev =>
      if prev then { z with negCount := z.negCount + 1, sides := setSide z.sides i false }
      else { z with sides := setSide z.sides i false }

/-- Modelled from the spec: trigger a line zone with one frame's tracked
(id, representative point) list. -/
def trigger (z : LineZone) (tracks : List (Nat × Point)) : LineZone :=
  tracks.foldl (fun z' t => triggerOne z' t.1 t.2) z

/-- Modelled from the spec: purge a removed track's side-history from a
line zone. -/
def removeTrack (z : LineZone) (i : Nat) : LineZone :=
  { z with sides := eraseSide z.sides i }

theorem lookupSide_setSide_self (l : List (Nat × Bool)) (i : Nat) (b : Bool) :
    lookupSide (setSide l i b) i = some b := by
  induction l with
  | nil => simp [setSide, lookupSide]
  | cons e rest ih =>
    by_cases h : e.1 = i
    · simp [setSide, h, lookupSide]
    · simp [setSide, h, lookupSide, ih]

theorem lookupSide_setSide_other (l : List (Nat × Bool)) (i j : Nat) (b : Bool)
    (hij : j ≠ i) : lookupSide (setSide l i b) j = lookupSide l j := by
  have hij' : ¬ i = j := fun h => hij h.symm
  induction l with
  | nil => simp [setSide, lookupSide, hij']
  | cons e rest ih =>
    by_cases h : e.1 = i
    · simp [setSide, h, lookupSide, hij']
    · simp [setSide, h, lookupSide, ih]

theorem setSide_same (l : List (Nat × Bool)) (i : Nat) (b : Bool)
    (h : lookupSide l i = some b) : setSide l i b = l := by
  induction l with
  | nil => simp [lookupSide] at h
  | cons e rest ih =>
    obtain ⟨e1, e2⟩ := e
    by_cases he : e1 = i
    · simp [lookupSide, he] at h
      simp [setSide, he, h]
    · simp [lookupSide, he] at h
      simp [setSide, he, ih h]

theorem lookupSide_eraseSide_self (l : List (Nat × Bool)) (i : Nat) :
    lookupSide (eraseSide l i) i = none := by
  induction l with
  | nil => simp [eraseSide, lookupSide]
  | cons e rest ih =>
    by_cases h : e.1 = i
    · simp [eraseSide, h, ih]
    · simp [eraseSide, h, lookupSide, ih]

theorem lookupSide_eraseSide_none (l : List (Nat × Bool)) (i j : Nat)
    (h : lookupSide l i = none) : lookupSide (eraseSide l j) i = none := by
  induction l with
  | nil => simp [eraseSide, lookupSide]
  | cons e rest ih =>
    by_cases he : e.1 = i
    · simp [lookupSide, he] at h
    · simp [lookupSide, he] at h
      by_cases hj : e.1 = j
      · simp [eraseSide, hj, ih h]
      · simp [eraseSide, hj, lookupSide, he, ih h]

/-- `triggerOne` for a different id leaves an absent side-history entry
absent. -/
theorem lookupSide_triggerOne_other (z : LineZone) (i j : Nat) (p : Point)
    (hij : i ≠ j) (h : lookupSide z.sides i = none) :
    lookupSide (triggerOne z j p).sides i = none := by
  unfold triggerOne
  cases hc : classify z.start z.endPoint p with
  | OnLine => simpa using h
  | Pos =>
    cases hl : lookupSide z.sides j with
    | none => simpa [lookupSide_setSide_other _ _ _ _ hij] using h
    | some prev =>
      cases prev <;> simpa [lookupSide_setSide_other _ _ _ _ hij] using h
  | Neg =>
    cases hl : lookupSide z.sides j with
    | none => simpa [lookupSide_setSide_other _ _ _ _ hij] using h
    | some prev =>
      cases prev <;> simpa [lookupSide_setSide_other _ _ _ _ hij] using h

/-- C1: per (track, line) pair and frame step: an On-Line classification
changes nothing (counters and stored side); with a stored definite side, a
same-side observation is a no-op, and a strict flip increments exactly the
corresponding directional counter once, leaves the other counter unchanged
and stores the new side. -/
theorem triggerOne_side_flip (z : LineZone) (i : Nat) (p : Point) :
    (classify z.start z.endPoint p = Side.OnLine → triggerOne z i p = z)
  ∧ (∀ b : Bool, lookupSide z.sides i = some b →
      (classify z.start z.endPoint p = sideOfBool b → triggerOne z i p = z)
    ∧ (classify z.start z.endPoint p = sideOfBool (!b) →
        lineCounts (triggerOne z i p) =
          (if b then (z.posCount, z.negCount + 1)
           else (z.posCount + 1, z.negCount))
      ∧ lookupSide (triggerOne z i p).sides i = some (!b))) := by
  constructor
  · intro hc
    unfold triggerOne
    rw [hc]
  · intro b hb
    constructor
    · intro hc
      cases b with
      | true =>
        simp only [sideOfBool, if_pos rfl] at hc
        unfold triggerOne
        rw [hc]
        simp [hb, setSide_same _ _ _ hb]
      | false =>
        simp only [sideOfBool, Bool.false_eq_true, if_neg] at hc
        unfold triggerOne
        rw [hc]
        simp [hb, setSide_same _ _ _ hb]
    · intro hc
      cases b with
      | true =>
        simp only [sideOfBool, Bool.not_true, Bool.false_eq_true, if_neg] at hc
        unfold triggerOne
        rw [hc]
        simp [hb, lineCounts, lookupSide_setSide_self]
      | false =>
        simp only [sideOfBool, Bool.not_false, if_pos rfl] at hc
        unfold triggerOne
        rw [hc]
        simp [hb, lineCounts, lookupSide_setSide_self]

/-- Witness for C1 at a concrete zone: track 1 stored Negative, observed at
a Positive-side point of the segment (0,0)–(10,0): the positive counter
increments from 0 to 1, the negative counter stays 0, and the stored side
becomes Positive. -/
theorem triggerOne_side_flip_witness :
    lookupSide [(1, false)] 1 = some false
  ∧ classify (Point.mk 0 0) (Point.mk 10 0) (Point.mk 5 1) = sideOfBool true
  ∧ lineCounts (triggerOne (LineZone.mk (Point.mk 0 0) (Point.mk 10 0) 0 0
      [(1, false)]) 1 (Point.mk 5 1)) = (1, 0)
  ∧ lookupSide (triggerOne (LineZone.mk (Point.mk 0 0) (Point.mk 10 0) 0 0
      [(1, false)]) 1 (Point.mk 5 1)).sides 1 = some true := by
  refine ⟨by decide, by decide, ?_⟩
  have h := (triggerOne_side_flip (LineZone.mk (Point.mk 0 0) (Point.mk 10 0)
    0 0 [(1, false)]) 1 (Point.mk 5 1)).2 false (by decide)
  have h2 := h.2 (by decide)
  exact ⟨h2.1, h2.2⟩

/-- An axis-aligned bounding box in integer pixel coordinates. -/
structure Box where
  x1 : ℤ
  y1 : ℤ
  x2 : ℤ
  y2 : ℤ
  deriving DecidableEq

/-- One external detection: box, class id, confidence score. -/
structure Detection where
  box : Box
  classId : Nat
  conf : ℚ
  deriving DecidableEq

/-- Track confidence state. -/
inductive TrackState where
  | Tentative
  | Confirmed
  | Lost
  deriving DecidableEq

/-- Modelled from the spec: one live track of the Track Manager (the
tracker library is not in the repository).  Motion state is the
constant-velocity estimate of the representative point, in pixels per
frame. -/
structure Track where
  id : Nat
  box : Box
  vx : ℤ
  vy : ℤ
  state : TrackState
  hits : Nat
  misses : Nat
  deriving DecidableEq

/-- Modelled from the spec: the startup thresholds of the Track Manager
(source line 33 passes them to the tracker's constructor). -/
structure TrackerConfig where
  highConf : ℚ
  lowConf : ℚ
  minIoU : ℚ
  minIoULow : ℚ
  confirmThreshold : Nat
  removalThreshold : Nat
  deriving DecidableEq

/-- Modelled from the spec: the Track Manager's registry and the next
monotonically assigned id. -/
structure TrackerState where
  tracks : List Track
  nextId : Nat
  deriving DecidableEq

/-- Reject malformed detections (non-positive box dimensions, confidence
outside [0,1]); modelled from the spec's failure-handling rule. -/
def validDet (d : Detection) : Bool :=
  decide (d.box.x1 < d.box.x2) && decide (d.box.y1 < d.box.y2) &&
    decide (0 ≤ d.conf) && decide (d.conf ≤ 1)

/-- The frame's valid detections, indexed by position. -/
def validIndexed (dets : List Detection) : List (Nat × Detection) :=
  (dets.filter validDet).enum

/-- High-confidence association pool. -/
def highPool (cfg : TrackerConfig) (dets : List Detection) :
    List (Nat × Detection) :=
  (validIndexed dets).filter (fun d => decide (cfg.highConf ≤ d.2.conf))

/-- Low-confidence association pool (above the minimum floor, below the
high cutoff). -/
def lowPool (cfg : TrackerConfig) (dets : List Detection) :
    List (Nat × Detection) :=
  (validIndexed dets).filter
    (fun d => decide (cfg.lowConf ≤ d.2.conf) && decide (d.2.conf < cfg.highConf))

/-- Intersection area of two boxes (zero when disjoint). -/
def interArea (a b : Box) : ℤ :=
  let w := min a.x2 b.x2 - max a.x1 b.x1
  let h := min a.y2 b.y2 - max a.y1 b.y1
  if 0 < w then if 0 < h then w * h else 0 else 0

/-- Area of a box. -/
def area (a : Box) : ℤ :=
  (a.x2 - a.x1) * (a.y2 - a.y1)

/-- Intersection over union of two boxes. -/
def iou (a b : Box) : ℚ :=
  (interArea a b : ℚ) / ((area a : ℚ) + (area b : ℚ) - (interArea a b : ℚ))

/-- Candidate (track, indexed detection) pairs whose overlap clears the
pass threshold, in track order then detection order. -/
def candPairs (tracks : List Track) (dets : List (Nat × Detection)) (thr : ℚ) :
    List (Track × Nat × Detection) :=
  tracks.flatMap (fun t =>
    (dets.filter (fun d => decide (thr ≤ iou t.box d.2.box))).map (fun d => (t, d)))

/-- Modelled from the spec: greedy highest-IoU-first assignment (the spec
allows any deterministic matching; ties resolve to the earliest candidate,
i.e. lowest track id first).  Returns (track id, indexed detection) pairs.
Fuel bounds the recursion by the number of tracks. -/
def greedyAssign : Nat → List Track → List (Nat × Detection) → ℚ →
    List (Nat × Nat × Detection)
  | 0, _, _, _ => []
  | fuel + 1, tracks, dets, thr =>
    match (candPairs tracks dets thr).argmax (fun c => iou c.1.box c.2.2.box) with
    | none => []
    | some c =>
      (c.1.id, c.2) ::
        greedyAssign fuel (tracks.filter (fun t => decide (t.id ≠ c.1.id)))
          (dets.filter (fun d => decide (d.1 ≠ c.2.1))) thr

/-- Modelled from the spec: advance a track one step under the
constant-velocity model. -/
def predictTrack (t : Track) : Track :=
  { t with box := ⟨t.box.x1 + t.vx, t.box.y1 + t.vy, t.box.x2 + t.vx, t.box.y2 + t.vy⟩ }

/-- Modelled from the spec: the frame's association, first pass over the
high-confidence pool, second pass matching the remaining tracks against the
low-confidence pool. -/
def assignOf (cfg : TrackerConfig) (st : TrackerState) (dets : List Detection) :
    List (Nat × Nat × Detection) :=
  let predicted := st.tracks.map predictTrack
  let m1 := greedyAssign predicted.length predicted (highPool cfg dets) cfg.minIoU
  let rest1 := predicted.filter (fun t => (m1.lookup t.id).isNone)
  m1 ++ greedyAssign rest1.length rest1 (lowPool cfg dets) cfg.minIoULow

/-- Modelled from the spec: a new Tentative track seeded with zero
velocity. -/
def newTrack (i : Nat) (d : Detection) : Track :=
  { id := i, box := d.box, vx := 0, vy := 0, state := TrackState.Tentative,
    hits := 1, misses := 0 }

/-- Centroid of a box on the pixel grid (the run's consistent
representative-point anchor). -/
def repPoint (b : Box) : Point :=
  ⟨(b.x1 + b.x2) / 2, (b.y1 + b.y2) / 2⟩

/-- Modelled from the spec: fuse a matched detection into a track — take the
observed box, re-estimate the velocity from the innovation, reset the miss
counter, count the match and promote once the confirmation threshold is
reached. -/
def updateMatched (cfg : TrackerConfig) (t : Track) (d : Detection) : Track :=
  { t with box := d.box,
           vx := (repPoint d.box).x - (repPoint t.box).x,
           vy := (repPoint d.box).y - (repPoint t.box).y,
           hits := t.hits + 1, misses := 0,
           state := match t.state with
             | TrackState.Tentative =>
               if cfg.confirmThreshold ≤ t.hits + 1 then TrackState.Confirmed
               else TrackState.Tentative
             | _ => TrackState.Confirmed }

/-- Modelled from the spec: age an unmatched track — count the miss, reset
the consecutive-match counter, mark Lost. -/
def ageTrack (t : Track) : Track :=
  { t with misses := t.misses + 1, hits := 0, state := TrackState.Lost }

/-- Result of one Track Manager frame: the new registry, the ids removed
this frame (signalled to the Line Counter), and the matched (id, box)
output consumed by the Line Counter. -/
structure StepResult where
  state : TrackerState
  removedIds : List Nat
  output : List (Nat × Box)
  deriving DecidableEq

/-- Update or age each existing track for the frame: a matched track fuses
its detection, an unmatched one ages and is dropped on the frame its
consecutive misses reach the removal threshold. -/
def continuingOf (cfg : TrackerConfig) (st : TrackerState) (dets : List Detection) :
    List Track :=
  (st.tracks.map predictTrack).filterMap (fun t =>
    match (assignOf cfg st dets).lookup t.id with
    | some a => some (updateMatched cfg t a.2)
    | none =>
      if cfg.removalThreshold ≤ t.misses + 1 then none else some (ageTrack t))

/-- Ids of the tracks removed this frame. -/
def removedOf (cfg : TrackerConfig) (st : TrackerState) (dets : List Detection) :
    List Nat :=
  (st.tracks.map predictTrack).filterMap (fun t =>
    match (assignOf cfg st dets).lookup t.id with
    | some _ => none
    | none => if cfg.removalThreshold ≤ t.misses + 1 then some t.id else none)

/-- New Tentative tracks spawned from the unmatched high-confidence
detections, with fresh monotonically increasing ids. -/
def spawnedOf (cfg : TrackerConfig) (st : TrackerState) (dets : List Detection) :
    List Track :=
  let usedIdx := (assignOf cfg st dets).map (fun a => a.2.1)
  let unmatchedHigh := (highPool cfg dets).filter (fun d => !(usedIdx.contains d.1))
  unmatchedHigh.enum.map (fun jd => newTrack (st.nextId + jd.1) jd.2.2)

/-- The matched (id, observed box) pairs handed to the Line Counter. -/
def outputOf (cfg : TrackerConfig) (st : TrackerState) (dets : List Detection) :
    List (Nat × Box) :=
  (st.tracks.map predictTrack).filterMap (fun t =>
    ((assignOf cfg st dets).lookup t.id).map (fun a => (t.id, a.2.box)))

/-- Modelled from the spec: one Track Manager frame — predict, associate in
two confidence passes, update matched tracks, age unmatched ones (removing
a track on the frame its consecutive misses reach the removal threshold),
and spawn Tentative tracks from unmatched high-confidence detections with
fresh monotonically increasing ids. -/
def trackerStep (cfg : TrackerConfig) (st : TrackerState) (dets : List Detection) :
    StepResult :=
  { state := { tracks := continuingOf cfg st dets ++ spawnedOf cfg st dets,
               nextId := st.nextId + (spawnedOf cfg st dets).length },
    removedIds := removedOf cfg st dets,
    output := outputOf cfg st dets }

/-- Vehicle class ids kept by the filter (source line 20). -/
def selected_classes : List Nat := [2, 3, 5, 7]

/-- The class filter of source lines 62–64: keep exactly the detections
whose class id is in `selected_classes`. -/
def filter_vehicle_detections (dets : List Detection) : List Detection :=
  dets.filter (fun d => decide (d.classId ∈ selected_classes))

/-- The per-frame mutable state of the script: the tracker and the three
line zones (source lines 33 and 52–56). -/
structure SystemState where
  tracker : TrackerState
  zones : List LineZone
  deriving DecidableEq

/-- One frame of the callback's counting pipeline (source lines 89–101):
filter detections to vehicles, update the tracker, purge removed tracks
from every line zone (modelled from the spec's removal signal) and trigger
every line zone with the matched tracks' representative points. -/
def systemStep (cfg : TrackerConfig) (s : SystemState) (dets : List Detection) :
    SystemState :=
  let r := trackerStep cfg s.tracker (filter_vehicle_detections dets)
  { tracker := r.state,
    zones := s.zones.map (fun z =>
      trigger (r.removedIds.foldl removeTrack z)
        (r.output.map (fun ob => (ob.1, repPoint ob.2)))) }

/-- Run a sequence of frames whose detection sets are all empty. -/
def runEmptyFrames (cfg : TrackerConfig) (s : SystemState) : Nat → SystemState
  | 0 => s
  | n + 1 => runEmptyFrames cfg (systemStep cfg s []) n

theorem candPairs_nil_dets (tracks : List Track) (thr : ℚ) :
    candPairs tracks [] thr = [] := by
  induction tracks with
  | nil => rfl
  | cons t ts ih =>
    simp only [candPairs, List.flatMap_cons, List.filter_nil, List.map_nil,
      List.nil_append]
    exact ih

theorem greedyAssign_nil_dets (fuel : Nat) (tracks : List Track) (thr : ℚ) :
    greedyAssign fuel tracks [] thr = [] := by
  cases fuel with
  | zero => rfl
  | succ n => simp [greedyAssign, candPairs_nil_dets]

theorem highPool_nil (cfg : TrackerConfig) : highPool cfg [] = [] := rfl

theorem lowPool_nil (cfg : TrackerConfig) : lowPool cfg [] = [] := rfl

theorem assignOf_nil (cfg : TrackerConfig) (st : TrackerState) :
    assignOf cfg st [] = [] := by
  simp [assignOf, highPool_nil, lowPool_nil, greedyAssign_nil_dets]

/-- Ids of an id-preserving `filterMap` form a sublist of the input ids. -/
theorem filterMap_ids_sublist (f : Track → Option Track)
    (hf : ∀ t u, f t = some u → u.id = t.id) (l : List Track) :
    ((l.filterMap f).map Track.id).Sublist (l.map Track.id) := by
  induction l with
  | nil => simp
  | cons t ts ih =>
    cases h : f t with
    | none =>
      simp only [List.filterMap_cons, h, List.map_cons]
      exact ih.cons _
    | some u =>
      simp only [List.filterMap_cons, h, List.map_cons, hf t u h]
      exact ih.cons₂ _

/-- Purging side-history never changes the counters. -/
theorem lineCounts_foldl_removeTrack (rem : List Nat) (z : LineZone) :
    lineCounts (rem.foldl removeTrack z) = lineCounts z := by
  induction rem generalizing z with
  | nil => rfl
  | cons i rest ih => simpa [removeTrack, lineCounts] using ih (removeTrack z i)

theorem outputOf_nil (cfg : TrackerConfig) (st : TrackerState) :
    outputOf cfg st [] = [] := by
  simp [outputOf, assignOf_nil, List.lookup_nil]

theorem spawnedOf_nil (cfg : TrackerConfig) (st : TrackerState) :
    spawnedOf cfg st [] = [] := by
  simp [spawnedOf, highPool_nil]

theorem continuingOf_nil (cfg : TrackerConfig) (st : TrackerState) :
    continuingOf cfg st [] =
      (st.tracks.map predictTrack).filterMap
        (fun t => if cfg.removalThreshold ≤ t.misses + 1 then none
                  else some (ageTrack t)) := by
  simp [continuingOf, assignOf_nil, List.lookup_nil]

/-- One frame with an empty detection set: no id is allocated, every
counter keeps its value, and every surviving track continues an existing
id. -/
theorem systemStep_empty_parts (cfg : TrackerConfig) (s : SystemState) :
    (systemStep cfg s []).tracker.nextId = s.tracker.nextId
  ∧ (systemStep cfg s []).zones.map lineCounts = s.zones.map lineCounts
  ∧ ∀ t ∈ (systemStep cfg s []).tracker.tracks,
      t.id ∈ s.tracker.tracks.map Track.id := by
  have hfv : filter_vehicle_detections [] = [] := rfl
  refine ⟨?_, ?_, ?_⟩
  · simp [systemStep, hfv, trackerStep, spawnedOf_nil]
  · simp only [systemStep, hfv, trackerStep, outputOf_nil, List.map_nil,
      List.map_map]
    apply List.map_congr_left
    intro z _
    simpa [trigger, Function.comp] using lineCounts_foldl_removeTrack _ z
  · intro t ht
    simp only [systemStep, hfv, trackerStep, continuingOf_nil, spawnedOf_nil,
      List.append_nil] at ht
    have hsub := filterMap_ids_sublist
      (fun u => if cfg.removalThreshold ≤ u.misses + 1 then none
                else some (ageTrack u))
      (by
        intro a u h
        by_cases hth : cfg.removalThreshold ≤ a.misses + 1
        · simp [hth] at h
        · simp only [if_neg hth, Option.some.injEq] at h
          simp [← h, ageTrack])
      (s.tracker.tracks.map predictTrack)
    have hid : t.id ∈ ((s.tracker.tracks.map predictTrack).filterMap
        (fun u => if cfg.removalThreshold ≤ u.misses + 1 then none
                  else some (ageTrack u))).map Track.id :=
      List.mem_map_of_mem Track.id ht
    have := hsub.mem hid
    simpa [List.map_map, predictTrack, Function.comp] using this

/-- C2: over any all-empty sequence of frames, no track is ever created (no
id is allocated and every live id already existed) and every line zone's
counters keep their initial values for the whole sequence. -/
theorem empty_sequence_inert (cfg : TrackerConfig) (s : SystemState) (n : Nat) :
    (runEmptyFrames cfg s n).tracker.nextId = s.tracker.nextId
  ∧ (runEmptyFrames cfg s n).zones.map lineCounts = s.zones.map lineCounts
  ∧ ∀ t ∈ (runEmptyFrames cfg s n).tracker.tracks,
      t.id ∈ s.tracker.tracks.map Track.id := by
  induction n generalizing s with
  | zero =>
    refine ⟨rfl, rfl, ?_⟩
    intro t ht
    exact List.mem_map_of_mem Track.id ht
  | succ n ih =>
    have hstep := systemStep_empty_parts cfg s
    have ihs := ih (systemStep cfg s [])
    refine ⟨ihs.1.trans hstep.1, ihs.2.1.trans hstep.2.1, ?_⟩
    intro t ht
    have h1 := ihs.2.2 t ht
    obtain ⟨u, hu, hui⟩ := List.mem_map.mp h1
    have := hstep.2.2 u hu
    simpa [hui] using this

/-- The Track Manager's registry invariant: live ids are pairwise distinct
and all below the next id to be assigned. -/
def TrackerInv (st : TrackerState) : Prop :=
  (st.tracks.map Track.id).Nodup ∧ ∀ t ∈ st.tracks, t.id < st.nextId

theorem continuingOf_ids_sublist (cfg : TrackerConfig) (st : TrackerState)
    (dets : List Detection) :
    ((continuingOf cfg st dets).map Track.id).Sublist (st.tracks.map Track.id) := by
  have h := filterMap_ids_sublist
    (fun t => match (assignOf cfg st dets).lookup t.id with
      | some a => some (updateMatched cfg t a.2)
      | none =>
        if cfg.removalThreshold ≤ t.misses + 1 then none else some (ageTrack t))
    (by
      intro a u hu
      cases hl : (assignOf cfg st dets).lookup a.id with
      | some x =>
        simp only [hl, Option.some.injEq] at hu
        simp [← hu, updateMatched]
      | none =>
        by_cases hth : cfg.removalThreshold ≤ a.misses + 1
        · simp [hl, hth] at hu
        · simp only [hl, if_neg hth, Option.some.injEq] at hu
          simp [← hu, ageTrack])
    (st.tracks.map predictTrack)
  simpa [continuingOf, List.map_map, Function.comp_def, predictTrack] using h

/-- The ids of the tracks spawned this frame are the consecutive fresh ids
starting at the current `nextId`. -/
theorem spawnedOf_ids (cfg : TrackerConfig) (st : TrackerState)
    (dets : List Detection) :
    (spawnedOf cfg st dets).map Track.id =
      (List.range (spawnedOf cfg st dets).length).map (fun j => st.nextId + j) := by
  simp only [spawnedOf, List.map_map, List.length_map]
  have h1 : (Track.id ∘ fun jd : Nat × (Nat × Detection) =>
      newTrack (st.nextId + jd.1) jd.2.2) =
      ((fun j => st.nextId + j) ∘ Prod.fst) := rfl
  rw [h1, ← List.map_map, List.enum_map_fst, List.enum_length]

theorem mem_spawnedOf_id (cfg : TrackerConfig) (st : TrackerState)
    (dets : List Detection) (i : Nat)
    (h : i ∈ (spawnedOf cfg st dets).map Track.id) :
    st.nextId ≤ i ∧ i < st.nextId + (spawnedOf cfg st dets).length := by
  rw [spawnedOf_ids] at h
  obtain ⟨j, hj, hij⟩ := List.mem_map.mp h
  have := List.mem_range.mp hj
  omega

theorem spawnedOf_ids_nodup (cfg : TrackerConfig) (st : TrackerState)
    (dets : List Detection) :
    ((spawnedOf cfg st dets).map Track.id).Nodup := by
  rw [spawnedOf_ids]
  exact (List.nodup_range _).map (fun a b hab => by omega)

/-- C4: the registry invariant is preserved by every frame: live ids stay
pairwise distinct and below the id counter, and every live track after the
frame either continues an id that was already live (the same object) or
carries a fresh id at least `nextId` — ids are assigned monotonically and
never given to a different object while the original track is alive. -/
theorem tracker_id_invariant (cfg : TrackerConfig) (st : TrackerState)
    (dets : List Detection) (h : TrackerInv st) :
    TrackerInv (trackerStep cfg st dets).state
  ∧ ∀ t ∈ (trackerStep cfg st dets).state.tracks,
      t.id ∈ st.tracks.map Track.id ∨ st.nextId ≤ t.id := by
  obtain ⟨hnd, hlt⟩ := h
  have hcont := continuingOf_ids_sublist cfg st dets
  have hcontnd : ((continuingOf cfg st dets).map Track.id).Nodup :=
    List.Nodup.sublist hcont hnd
  have hcontlt : ∀ t ∈ continuingOf cfg st dets, t.id < st.nextId := by
    intro t ht
    have hmem : t.id ∈ st.tracks.map Track.id :=
      hcont.mem (List.mem_map_of_mem Track.id ht)
    obtain ⟨u, hu, hui⟩ := List.mem_map.mp hmem
    have := hlt u hu
    omega
  have hspawnnd := spawnedOf_ids_nodup cfg st dets
  constructor
  · constructor
    · show ((continuingOf cfg st dets ++ spawnedOf cfg st dets).map Track.id).Nodup
      rw [List.map_append]
      exact List.nodup_append.mpr ⟨hcontnd, hspawnnd, by
        intro a ha hb
        obtain ⟨u, hu, hui⟩ := List.mem_map.mp ha
        have h1 : a < st.nextId := hui ▸ hcontlt u hu
        have h2 := (mem_spawnedOf_id cfg st dets a hb).1
        omega⟩
    · intro t ht
      show t.id < st.nextId + (spawnedOf cfg st dets).length
      rcases List.mem_append.mp ht with hc | hs
      · have := hcontlt t hc
        omega
      · exact (mem_spawnedOf_id cfg st dets t.id
          (List.mem_map_of_mem Track.id hs)).2
  · intro t ht
    rcases List.mem_append.mp ht with hc | hs
    · exact Or.inl (hcont.mem (List.mem_map_of_mem Track.id hc))
    · exact Or.inr (mem_spawnedOf_id cfg st dets t.id
        (List.mem_map_of_mem Track.id hs)).1

/-- Witness for C4 at a concrete registry: one live track with id 5,
`nextId` 6, and an empty frame. -/
theorem tracker_id_invariant_witness :
    TrackerInv (TrackerState.mk
      [Track.mk 5 (Box.mk 0 0 2 2) 0 0 TrackState.Confirmed 1 0] 6)
  ∧ (TrackerInv (trackerStep (TrackerConfig.mk 1 0 1 1 1 2)
      (TrackerState.mk
        [Track.mk 5 (Box.mk 0 0 2 2) 0 0 TrackState.Confirmed 1 0] 6) []).state
    ∧ ∀ t ∈ (trackerStep (TrackerConfig.mk 1 0 1 1 1 2)
        (TrackerState.mk
          [Track.mk 5 (Box.mk 0 0 2 2) 0 0 TrackState.Confirmed 1 0] 6)
        []).state.tracks,
        t.id ∈ (TrackerState.mk
          [Track.mk 5 (Box.mk 0 0 2 2) 0 0 TrackState.Confirmed 1 0]
          6).tracks.map Track.id ∨
          (TrackerState.mk
            [Track.mk 5 (Box.mk 0 0 2 2) 0 0 TrackState.Confirmed 1 0]
            6).nextId ≤ t.id) :=
  ⟨⟨by decide, by decide⟩,
    tracker_id_invariant (TrackerConfig.mk 1 0 1 1 1 2)
      (TrackerState.mk
        [Track.mk 5 (Box.mk 0 0 2 2) 0 0 TrackState.Confirmed 1 0] 6) []
      ⟨by decide, by decide⟩⟩

/-- C5: a frame on which a live track goes unmatched increments its
consecutive-miss counter by one and marks it Lost, as long as the count
stays below the removal threshold; on the frame where the count reaches the
threshold the track is removed (its id is signalled as removed and no
longer live), and not on any earlier frame. -/
theorem unmatched_track_removal (cfg : TrackerConfig) (st : TrackerState)
    (dets : List Detection) (t : Track) (hinv : TrackerInv st)
    (hmem : t ∈ st.tracks)
    (hun : (assignOf cfg st dets).lookup t.id = none) :
    (t.misses + 1 < cfg.removalThreshold →
      ∃ u ∈ (trackerStep cfg st dets).state.tracks,
        u.id = t.id ∧ u.misses = t.misses + 1 ∧ u.state = TrackState.Lost)
  ∧ (cfg.removalThreshold ≤ t.misses + 1 →
      t.id ∈ (trackerStep cfg st dets).removedIds
    ∧ ∀ u ∈ (trackerStep cfg st dets).state.tracks, u.id ≠ t.id) := by
  have hptid : (predictTrack t).id = t.id := rfl
  have hptmiss : (predictTrack t).misses = t.misses := rfl
  have hptmem : predictTrack t ∈ st.tracks.map predictTrack :=
    List.mem_map_of_mem predictTrack hmem
  constructor
  · intro hlt
    refine ⟨ageTrack (predictTrack t), ?_, rfl, by simp [ageTrack, hptmiss], rfl⟩
    show ageTrack (predictTrack t) ∈ continuingOf cfg st dets ++ spawnedOf cfg st dets
    apply List.mem_append_left
    apply List.mem_filterMap.mpr
    refine ⟨predictTrack t, hptmem, ?_⟩
    simp only [hptid, hun, hptmiss]
    rw [if_neg (by omega)]
  · intro hge
    constructor
    · apply List.mem_filterMap.mpr
      refine ⟨predictTrack t, hptmem, ?_⟩
      simp only [hptid, hun, hptmiss]
      rw [if_pos hge]
    · intro u hu
      rcases List.mem_append.mp hu with hc | hs
      · intro hut
        obtain ⟨v, hv, hfv⟩ := List.mem_filterMap.mp hc
        obtain ⟨w, hw, hwv⟩ := List.mem_map.mp hv
        have hvid : v.id = w.id := (congrArg Track.id hwv).symm.trans rfl
        have huid : u.id = v.id := by
          cases hl : (assignOf cfg st dets).lookup v.id with
          | some x =>
            simp only [hl, Option.some.injEq] at hfv
            simp [← hfv, updateMatched]
          | none =>
            by_cases hth : cfg.removalThreshold ≤ v.misses + 1
            · simp [hl, hth] at hfv
            · simp only [hl, if_neg hth, Option.some.injEq] at hfv
              simp [← hfv, ageTrack]
        have hwt : w = t := List.inj_on_of_nodup_map hinv.1 hw hmem
          (by rw [← hvid, ← huid, hut])
        have hvt : v = predictTrack t := by rw [← hwv, hwt]
        rw [hvt] at hfv
        simp only [hptid, hun, hptmiss] at hfv
        rw [if_pos hge] at hfv
        exact Option.noConfusion hfv
      · have := (mem_spawnedOf_id cfg st dets u.id
          (List.mem_map_of_mem Track.id hs)).1
        have := hinv.2 t hmem
        omega

/-- Witness for C5: a lone live track with zero misses and removal
threshold 2, unmatched on an empty frame: it survives once, Lost, with one
miss. -/
theorem unmatched_track_removal_witness :
    (Track.mk 5 (Box.mk 0 0 2 2) 0 0 TrackState.Confirmed 1 0) ∈
      (TrackerState.mk
        [Track.mk 5 (Box.mk 0 0 2 2) 0 0 TrackState.Confirmed 1 0] 6).tracks
  ∧ (assignOf (TrackerConfig.mk 1 0 1 1 1 2)
      (TrackerState.mk
        [Track.mk 5 (Box.mk 0 0 2 2) 0 0 TrackState.Confirmed 1 0] 6)
      []).lookup 5 = none
  ∧ ∃ u ∈ (trackerStep (TrackerConfig.mk 1 0 1 1 1 2)
      (TrackerState.mk
        [Track.mk 5 (Box.mk 0 0 2 2) 0 0 TrackState.Confirmed 1 0] 6)
      []).state.tracks,
      u.id = 5 ∧ u.misses = 1 ∧ u.state = TrackState.Lost :=
  ⟨by decide, by decide,
    (unmatched_track_removal (TrackerConfig.mk 1 0 1 1 1 2)
      (TrackerState.mk
        [Track.mk 5 (Box.mk 0 0 2 2) 0 0 TrackState.Confirmed 1 0] 6)
      [] (Track.mk 5 (Box.mk 0 0 2 2) 0 0 TrackState.Confirmed 1 0)
      ⟨by decide, by decide⟩ (by decide) (by decide)).1 (by decide)⟩

/-- A fold of purges keeps an absent entry absent. -/
theorem lookupSide_foldl_removeTrack_none (rem : List Nat) (z : LineZone)
    (i : Nat) (h : lookupSide z.sides i = none) :
    lookupSide ((rem.foldl removeTrack z)).sides i = none := by
  induction rem generalizing z with
  | nil => exact h
  | cons j rest ih =>
    exact ih (removeTrack z j) (lookupSide_eraseSide_none z.sides i j h)

/-- Purging a removed id (among others) deletes its entry. -/
theorem lookupSide_foldl_removeTrack (rem : List Nat) (z : LineZone)
    (i : Nat) (h : i ∈ rem) :
    lookupSide ((rem.foldl removeTrack z)).sides i = none := by
  induction rem generalizing z with
  | nil => cases h
  | cons j rest ih =>
    rcases List.mem_cons.mp h with hij | hr
    · subst hij
      exact lookupSide_foldl_removeTrack_none rest (removeTrack z i) i
        (lookupSide_eraseSide_self z.sides i)
    · exact ih (removeTrack z j) hr

/-- Triggering with tracks that all carry other ids keeps an absent entry
absent. -/
theorem lookupSide_trigger_not_mem (z : LineZone) (l : List (Nat × Point))
    (i : Nat) (hni : ∀ q ∈ l, q.1 ≠ i) (h : lookupSide z.sides i = none) :
    lookupSide (trigger z l).sides i = none := by
  induction l generalizing z with
  | nil => exact h
  | cons q rest ih =>
    have hqi : i ≠ q.1 := fun hh => (hni q (List.mem_cons_self q rest)) hh.symm
    exact ih (triggerOne z q.1 q.2)
      (fun r hr => hni r (List.mem_cons_of_mem q hr))
      (lookupSide_triggerOne_other z i q.1 q.2 hqi h)

/-- A removed id was unmatched this frame. -/
theorem mem_removedOf_lookup (cfg : TrackerConfig) (st : TrackerState)
    (dets : List Detection) (i : Nat) (h : i ∈ removedOf cfg st dets) :
    (assignOf cfg st dets).lookup i = none := by
  obtain ⟨v, hv, hfv⟩ := List.mem_filterMap.mp h
  cases hl : (assignOf cfg st dets).lookup v.id with
  | some x => simp [hl] at hfv
  | none =>
    by_cases hth : cfg.removalThreshold ≤ v.misses + 1
    · simp only [hl, if_pos hth, Option.some.injEq] at hfv
      rw [← hfv]
      exact hl
    · simp [hl, hth] at hfv

/-- An output pair's id was matched this frame. -/
theorem mem_outputOf_lookup (cfg : TrackerConfig) (st : TrackerState)
    (dets : List Detection) (q : Nat × Box) (h : q ∈ outputOf cfg st dets) :
    (assignOf cfg st dets).lookup q.1 ≠ none := by
  obtain ⟨v, hv, hfv⟩ := List.mem_filterMap.mp h
  cases hl : (assignOf cfg st dets).lookup v.id with
  | none => simp [hl] at hfv
  | some x =>
    simp only [hl] at hfv
    have hq : q = (v.id, x.2.box) := by simpa using hfv.symm
    rw [hq]
    simp [hl]

/-- C3: a track id removed by the Track Manager has its side-history entry
deleted from every line zone of the new state in the same frame; and a
later observation of an id with no stored entry is a fresh first
observation — it changes no counter and records the observed definite
side. -/
theorem removal_purges_sides (cfg : TrackerConfig) (s : SystemState)
    (dets : List Detection) :
    (∀ i ∈ (trackerStep cfg s.tracker (filter_vehicle_detections dets)).removedIds,
      ∀ z ∈ (systemStep cfg s dets).zones, lookupSide z.sides i = none)
  ∧ (∀ z : LineZone, ∀ i : Nat, ∀ p : Point,
      lookupSide z.sides i = none →
        lineCounts (triggerOne z i p) = lineCounts z
      ∧ (classify z.start z.endPoint p = Side.Pos →
          lookupSide (triggerOne z i p).sides i = some true)
      ∧ (classify z.start z.endPoint p = Side.Neg →
          lookupSide (triggerOne z i p).sides i = some false)) := by
  constructor
  · intro i hi z hz
    obtain ⟨z0, hz0, hzdef⟩ := List.mem_map.mp hz
    rw [← hzdef]
    apply lookupSide_trigger_not_mem
    · intro q hq
      obtain ⟨ob, hob, hqdef⟩ := List.mem_map.mp hq
      have hsome := mem_outputOf_lookup cfg s.tracker
        (filter_vehicle_detections dets) ob hob
      have hnone := mem_removedOf_lookup cfg s.tracker
        (filter_vehicle_detections dets) i hi
      rw [← hqdef]
      intro hq1
      rw [hq1] at hsome
      exact hsome hnone
    · exact lookupSide_foldl_removeTrack _ z0 i hi
  · intro z i p h
    unfold triggerOne
    cases hc : classify z.start z.endPoint p with
    | OnLine => simp [lineCounts, hc]
    | Pos => simp [h, lineCounts, lookupSide_setSide_self]
    | Neg => simp [h, lineCounts, lookupSide_setSide_self]

/-- Witness for C3's fresh-observation half at a concrete zone with no
stored sides: observing id 7 on the positive side counts nothing and
records Positive. -/
theorem removal_purges_sides_witness :
    lookupSide ([] : List (Nat × Bool)) 7 = none
  ∧ classify (Point.mk 0 0) (Point.mk 10 0) (Point.mk 5 1) = Side.Pos
  ∧ lineCounts (triggerOne (LineZone.mk (Point.mk 0 0) (Point.mk 10 0) 0 0 [])
      7 (Point.mk 5 1)) =
      lineCounts (LineZone.mk (Point.mk 0 0) (Point.mk 10 0) 0 0 [])
  ∧ lookupSide (triggerOne (LineZone.mk (Point.mk 0 0) (Point.mk 10 0) 0 0 [])
      7 (Point.mk 5 1)).sides 7 = some true := by
  have h := (removal_purges_sides (TrackerConfig.mk 1 0 1 1 1 2)
    (SystemState.mk (TrackerState.mk [] 0) []) []).2
    (LineZone.mk (Point.mk 0 0) (Point.mk 10 0) 0 0 []) 7 (Point.mk 5 1)
    (by decide)
  exact ⟨by decide, by decide, h.1, h.2.1 (by decide)⟩

/-- `triggerOne` never decreases a counter. -/
theorem triggerOne_counts_mono (z : LineZone) (i : Nat) (p : Point) :
    z.posCount ≤ (triggerOne z i p).posCount
  ∧ z.negCount ≤ (triggerOne z i p).negCount := by
  unfold triggerOne
  cases classify z.start z.endPoint p with
  | OnLine => exact ⟨le_refl _, le_refl _⟩
  | Pos =>
    cases lookupSide z.sides i with
    | none => exact ⟨le_refl _, le_refl _⟩
    | some prev => cases prev <;> simp
  | Neg =>
    cases lookupSide z.sides i with
    | none => exact ⟨le_refl _, le_refl _⟩
    | some prev => cases prev <;> simp

/-- A whole frame's trigger never decreases a counter. -/
theorem trigger_counts_mono (l : List (Nat × Point)) (z : LineZone) :
    z.posCount ≤ (trigger z l).posCount ∧ z.negCount ≤ (trigger z l).negCount := by
  induction l generalizing z with
  | nil => exact ⟨le_refl _, le_refl _⟩
  | cons q rest ih =>
    have h1 := triggerOne_counts_mono z q.1 q.2
    have h2 := ih (triggerOne z q.1 q.2)
    exact ⟨le_trans h1.1 h2.1, le_trans h1.2 h2.2⟩

/-- C8: processing any frame never decreases any line zone's positive or
negative counter: the counters are monotonically non-decreasing along the
processed sequence. -/
theorem counts_monotone (cfg : TrackerConfig) (s : SystemState)
    (dets : List Detection) :
    List.Forall₂ (fun a b : Nat × Nat => a.1 ≤ b.1 ∧ a.2 ≤ b.2)
      (s.zones.map lineCounts) ((systemStep cfg s dets).zones.map lineCounts) := by
  simp only [systemStep, List.map_map]
  rw [List.forall₂_map_right_iff, List.forall₂_map_left_iff, List.forall₂_same]
  intro z hz
  have hpurge := lineCounts_foldl_removeTrack
    (trackerStep cfg s.tracker (filter_vehicle_detections dets)).removedIds z
  have htr := trigger_counts_mono
    ((trackerStep cfg s.tracker (filter_vehicle_detections dets)).output.map
      (fun ob => (ob.1, repPoint ob.2)))
    ((trackerStep cfg s.tracker (filter_vehicle_detections dets)).removedIds.foldl
      removeTrack z)
  have h1 := congrArg Prod.fst hpurge
  have h2 := congrArg Prod.snd hpurge
  simp only [lineCounts] at h1 h2 ⊢
  constructor
  · exact le_of_eq_of_le h1.symm htr.1
  · exact le_of_eq_of_le h2.symm htr.2

/-- Modelled from the spec: the Line Counter's count query used by the
renderer (source lines 104–105) — it returns the (positive, negative)
snapshot and hands the zone state back unchanged. -/
def queryCounts (z : LineZone) : (Nat × Nat) × LineZone :=
  ((z.posCount, z.negCount), z)

/-- The renderer's counter-annotation pass over all zones: draws every
zone's snapshot onto the frame and returns the zones as the query left
them. -/
def annotateCounters (draw : Nat × Nat → List Nat → List Nat)
    (fr : List Nat) (zs : List LineZone) : List Nat × List LineZone :=
  (zs.foldl (fun f z => draw (queryCounts z).1 f) fr,
    zs.map (fun z => (queryCounts z).2))

/-- C7: querying the line counts is a pure read: the annotation pass leaves
every zone (counters and stored sides) unchanged, doing it twice changes
nothing either, and the snapshots read before and after it are identical. -/
theorem query_counts_pure (draw : Nat × Nat → List Nat → List Nat)
    (fr : List Nat) (zs : List LineZone) :
    (annotateCounters draw fr zs).2 = zs
  ∧ (annotateCounters draw fr ((annotateCounters draw fr zs).2)).2 = zs
  ∧ zs.map (fun z => (queryCounts z).1) =
      ((annotateCounters draw fr zs).2).map (fun z => (queryCounts z).1) := by
  have h : (annotateCounters draw fr zs).2 = zs := List.map_id' zs
  exact ⟨h, by rw [h]; exact List.map_id' zs, by rw [h]⟩

/-- C9: the class filter is a pure predicate on the class id: it returns
exactly the detections whose class id is 2, 3, 5 or 7, as a sublist of the
input (original relative order, fields untouched, input unmodified). -/
theorem filter_vehicle_detections_spec (dets : List Detection) :
    filter_vehicle_detections dets =
      dets.filter (fun d =>
        decide (d.classId = 2 ∨ d.classId = 3 ∨ d.classId = 5 ∨ d.classId = 7))
  ∧ (filter_vehicle_detections dets).Sublist dets := by
  constructor
  · apply List.filter_congr
    intro d _
    simp [selected_classes]
  · exact List.filter_sublist _

/-- Witness for C2 at a concrete start state: no tracks, one zone, two
empty frames. -/
theorem empty_sequence_inert_witness :
    (runEmptyFrames (TrackerConfig.mk 1 0 1 1 1 2)
      (SystemState.mk (TrackerState.mk [] 0)
        [LineZone.mk (Point.mk 0 0) (Point.mk 10 0) 0 0 []]) 2).tracker.nextId =
      (SystemState.mk (TrackerState.mk [] 0)
        [LineZone.mk (Point.mk 0 0) (Point.mk 10 0) 0 0 []]).tracker.nextId
  ∧ (runEmptyFrames (TrackerConfig.mk 1 0 1 1 1 2)
      (SystemState.mk (TrackerState.mk [] 0)
        [LineZone.mk (Point.mk 0 0) (Point.mk 10 0) 0 0 []]) 2).zones.map
        lineCounts =
      (SystemState.mk (TrackerState.mk [] 0)
        [LineZone.mk (Point.mk 0 0) (Point.mk 10 0) 0 0 []]).zones.map lineCounts
  ∧ ∀ t ∈ (runEmptyFrames (TrackerConfig.mk 1 0 1 1 1 2)
      (SystemState.mk (TrackerState.mk [] 0)
        [LineZone.mk (Point.mk 0 0) (Point.mk 10 0) 0 0 []]) 2).tracker.tracks,
      t.id ∈ (SystemState.mk (TrackerState.mk [] 0)
        [LineZone.mk (Point.mk 0 0) (Point.mk 10 0) 0 0 []]).tracker.tracks.map
          Track.id :=
  empty_sequence_inert (TrackerConfig.mk 1 0 1 1 1 2)
    (SystemState.mk (TrackerState.mk [] 0)
      [LineZone.mk (Point.mk 0 0) (Point.mk 10 0) 0 0 []]) 2

/-- Whether a startup construction succeeded. -/
def exceptOk {ε α : Type} : Except ε α → Bool
  | Except.ok _ => true
  | Except.error _ => false

/-- Modelled from the spec: startup construction of a counting line — a
degenerate line (start equals end) is a fatal configuration error; the
library constructor called at source lines 52–56 is not in the
repository. -/
def mkLineZone (s e : Point) : Except String LineZone :=
  if s = e then Except.error "degenerate line: start equals end"
  else Except.ok (LineZone.mk s e 0 0 [])

/-- Modelled from the spec: the valid ranges of the startup thresholds —
positive confirmation and removal counts, confidence cutoffs and overlap
thresholds within [0, 1], the low floor at most the high cutoff. -/
def validThresholds (cfg : TrackerConfig) : Bool :=
  decide (1 ≤ cfg.confirmThreshold) && decide (1 ≤ cfg.removalThreshold) &&
  decide (0 ≤ cfg.lowConf) && decide (cfg.lowConf ≤ cfg.highConf) &&
  decide (cfg.highConf ≤ 1) && decide (0 ≤ cfg.minIoU) &&
  decide (cfg.minIoU ≤ 1) && decide (0 ≤ cfg.minIoULow) &&
  decide (cfg.minIoULow ≤ 1)

/-- Modelled from the spec: startup construction of the Track Manager —
thresholds out of their valid range are a fatal configuration error; the
tracker constructor called at source line 33 is not in the repository. -/
def mkTracker (cfg : TrackerConfig) :
    Except String (TrackerConfig × TrackerState) :=
  if validThresholds cfg then Except.ok (cfg, TrackerState.mk [] 0)
  else Except.error "thresholds out of valid range"

/-- Source line 42. -/
def LINE_START_ONE : Point := Point.mk 250 225

/-- Source line 43. -/
def LINE_END_ONE : Point := Point.mk 0 175

/-- Source line 45. -/
def LINE_START_TWO : Point := Point.mk 375 225

/-- Source line 46. -/
def LINE_END_TWO : Point := Point.mk 270 225

/-- Source line 48. -/
def LINE_START_THREE : Point := Point.mk 600 280

/-- Source line 49. -/
def LINE_END_THREE : Point := Point.mk 425 230

/-- The three counting lines configured at source lines 52–56, built
through the validating constructor. -/
def line_zones : Except String (List LineZone) := do
  let z1 ← mkLineZone LINE_START_ONE LINE_END_ONE
  let z2 ← mkLineZone LINE_START_TWO LINE_END_TWO
  let z3 ← mkLineZone LINE_START_THREE LINE_END_THREE
  pure [z1, z2, z3]

/-- The tracker constructed at source line 33, its arguments mapped to the
model's thresholds: activation threshold 0.25 as the high/low confidence
cutoff (low floor 0.1), minimum matching threshold 0.8 as the overlap
threshold of both passes, lost-track buffer 60 frames at the native 30 fps
as the removal threshold, immediate confirmation. -/
def tracker : Except String (TrackerConfig × TrackerState) :=
  mkTracker (TrackerConfig.mk (1 / 4) (1 / 10) (8 / 10) (8 / 10) 1 60)

/-- C6: startup refuses to run on a bad configuration — every degenerate
line (start equals end) and every out-of-range threshold set yields a
startup error instead of a constructed component — while the source's
actual configuration passes validation. -/
theorem config_errors_fatal :
    (∀ p : Point, exceptOk (mkLineZone p p) = false)
  ∧ (∀ c : TrackerConfig, validThresholds c = false →
      exceptOk (mkTracker c) = false)
  ∧ exceptOk line_zones = true
  ∧ exceptOk tracker = true := by
  refine ⟨?_, ?_, ?_, ?_⟩
  · intro p
    simp [mkLineZone, exceptOk]
  · intro c hc
    simp [mkTracker, hc, exceptOk]
  · decide
  · have hv : validThresholds
        (TrackerConfig.mk (1 / 4) (1 / 10) (8 / 10) (8 / 10) 1 60) = true := by
      simp only [validThresholds, Bool.and_eq_true, decide_eq_true_eq]
      norm_num
    show exceptOk (mkTracker
      (TrackerConfig.mk (1 / 4) (1 / 10) (8 / 10) (8 / 10) 1 60)) = true
    unfold mkTracker
    rw [if_pos hv]
    rfl

/-- Witness for C6: a concrete degenerate line and a concrete threshold set
with a zero confirmation count both fail to construct. -/
theorem config_errors_fatal_witness :
    exceptOk (mkLineZone (Point.mk 3 4) (Point.mk 3 4)) = false
  ∧ validThresholds (TrackerConfig.mk 1 0 1 1 0 60) = false
  ∧ exceptOk (mkTracker (TrackerConfig.mk 1 0 1 1 0 60)) = false :=
  ⟨config_errors_fatal.1 (Point.mk 3 4), by decide,
    config_errors_fatal.2.1 (TrackerConfig.mk 1 0 1 1 0 60) (by decide)⟩

/-- A mutable pixel-buffer heap: Python ndarray references are indices into
it; `next` is the first unallocated reference. -/
structure Heap where
  mem : Nat → List Nat
  next : Nat

/-- Read the buffer behind a reference. -/
def Heap.read (h : Heap) (r : Nat) : List Nat := h.mem r

/-- Overwrite the buffer behind a reference in place. -/
def Heap.write (h : Heap) (r : Nat) (f : List Nat) : Heap :=
  Heap.mk (fun i => if i = r then f else h.mem i) h.next

/-- Allocate a fresh buffer (`frame.copy()` allocates one holding a copy of
the contents). -/
def Heap.alloc (h : Heap) (f : List Nat) : Nat × Heap :=
  (h.next, Heap.mk (fun i => if i = h.next then f else h.mem i) (h.next + 1))

/-- An annotator call: draws on the scene buffer in place and returns it. -/
def annotateAt (draw : List Nat → List Nat) (h : Heap) (r : Nat) : Heap :=
  h.write r (draw (h.read r))

/-- Frame-effect embedding of `callback` (source lines 94–107): the box
annotator draws on `frame.copy()`, then the dot annotator and each
line-zone annotator draw in place on that same copy, which is returned;
the drawing collaborators are abstract buffer transformations. -/
def callback (drawBox drawDot : List Nat → List Nat)
    (lineDraws : List (List Nat → List Nat)) (h : Heap) (frame : Nat) :
    Nat × Heap :=
  let a := h.alloc (h.read frame)
  let h1 := annotateAt drawBox a.2 a.1
  let h2 := annotateAt drawDot h1 a.1
  let h3 := lineDraws.foldl (fun hh d => annotateAt d hh a.1) h2
  (a.1, h3)

theorem Heap.read_write_self (h : Heap) (r : Nat) (f : List Nat) :
    (h.write r f).read r = f := by
  simp [Heap.read, Heap.write]

theorem Heap.read_write_other (h : Heap) (r q : Nat) (f : List Nat)
    (hne : q ≠ r) : (h.write r f).read q = h.read q := by
  simp [Heap.read, Heap.write, hne]

theorem read_foldl_annotateAt_other (ds : List (List Nat → List Nat))
    (h : Heap) (a q : Nat) (hne : q ≠ a) :
    (ds.foldl (fun hh d => annotateAt d hh a) h).read q = h.read q := by
  induction ds generalizing h with
  | nil => rfl
  | cons d rest ih =>
    simp only [List.foldl_cons]
    rw [ih (annotateAt d h a)]
    exact Heap.read_write_other _ _ _ _ hne

theorem read_foldl_annotateAt_self (ds : List (List Nat → List Nat))
    (h : Heap) (a : Nat) :
    (ds.foldl (fun hh d => annotateAt d hh a) h).read a =
      ds.foldl (fun f d => d f) (h.read a) := by
  induction ds generalizing h with
  | nil => rfl
  | cons d rest ih =>
    simp only [List.foldl_cons]
    rw [ih (annotateAt d h a)]
    rw [annotateAt, Heap.read_write_self]

/-- C10: for every valid input frame reference, `callback` leaves the
caller's frame buffer exactly as it was, returns a different (freshly
allocated) reference, and that result holds the input frame's contents with
the box, dot and line-counter drawings applied in order. -/
theorem callback_preserves_input (drawBox drawDot : List Nat → List Nat)
    (lineDraws : List (List Nat → List Nat)) (h : Heap) (frame : Nat)
    (hfr : frame < h.next) :
    (callback drawBox drawDot lineDraws h frame).2.read frame = h.read frame
  ∧ (callback drawBox drawDot lineDraws h frame).1 ≠ frame
  ∧ (callback drawBox drawDot lineDraws h frame).2.read
      (callback drawBox drawDot lineDraws h frame).1 =
      lineDraws.foldl (fun f d => d f) (drawDot (drawBox (h.read frame))) := by
  have hne : frame ≠ h.next := Nat.ne_of_lt hfr
  refine ⟨?_, fun hh => hne hh.symm, ?_⟩
  · simp only [callback]
    rw [show (h.alloc (h.read frame)).1 = h.next from rfl]
    rw [read_foldl_annotateAt_other _ _ _ _ hne]
    rw [annotateAt, Heap.read_write_other _ _ _ _ hne]
    rw [annotateAt, Heap.read_write_other _ _ _ _ hne]
    simp [Heap.alloc, Heap.read, hne]
  · simp only [callback]
    rw [show (h.alloc (h.read frame)).1 = h.next from rfl]
    rw [read_foldl_annotateAt_self]
    rw [annotateAt, Heap.read_write_self]
    rw [annotateAt, Heap.read_write_self]
    simp [Heap.alloc, Heap.read]

/-- Witness for C10 at a concrete one-buffer heap: the caller's frame 0 is
untouched, the result is the fresh reference 1, and it holds the drawn
copy. -/
theorem callback_preserves_input_witness :
    0 < (Heap.mk (fun r => if r = 0 then [9] else []) 1).next
  ∧ ((callback (fun f => 1 :: f) (fun f => 2 :: f) [fun f => 3 :: f]
      (Heap.mk (fun r => if r = 0 then [9] else []) 1) 0).2.read 0 =
      (Heap.mk (fun r => if r = 0 then [9] else []) 1).read 0
    ∧ (callback (fun f => 1 :: f) (fun f => 2 :: f) [fun f => 3 :: f]
      (Heap.mk (fun r => if r = 0 then [9] else []) 1) 0).1 ≠ 0
    ∧ (callback (fun f => 1 :: f) (fun f => 2 :: f) [fun f => 3 :: f]
      (Heap.mk (fun r => if r = 0 then [9] else []) 1) 0).2.read
      (callback (fun f => 1 :: f) (fun f => 2 :: f) [fun f => 3 :: f]
        (Heap.mk (fun r => if r = 0 then [9] else []) 1) 0).1 =
      [fun f => 3 :: f].foldl (fun f d => d f)
        ((fun f => 2 :: f) ((fun f => 1 :: f)
          ((Heap.mk (fun r => if r = 0 then [9] else []) 1).read 0)))) :=
  ⟨by decide,
    callback_preserves_input (fun f => 1 :: f) (fun f => 2 :: f)
      [fun f => 3 :: f] (Heap.mk (fun r => if r = 0 then [9] else []) 1) 0
      (by decide)⟩

end App
